import Mathlib

/-!
Verification of the yc-agentmail group-chat negotiation orchestrator.

The definitions below are a shallow embedding of the Python source:
  - `src/api/group_chat/orchestrator.py` (GroupChatOrchestrator: routing,
    agent turns, plan validation, master planner, rejection handling),
  - `src/api/group_chat/database.py` (`update_approval_state`),
  - `src/api/group_chat/api.py` (the pending_approval gate in `start_group_chat`),
  - `src/main.py` (`handle_agentmail_webhook` reply classification and
    `trigger_parallel_bookings` / `book_for_user`).

LLM calls are modelled as oracles (the generated text or parsed document is a
parameter); everything else follows the source line by line.
-/

namespace YCAgentMail

/-! ## String utilities (Python `in`, `str.lower`, slicing) -/

/-- Substring test on character lists, mirroring the semantics of the Python
`needle in hay` operator on strings: true iff `needle` occurs contiguously in
`hay` (an empty needle is contained in everything). -/
def listContains (needle : List Char) (hay : List Char) : Bool :=
  match hay with
  | [] => needle.isEmpty
  | c :: rest => needle.isPrefixOf (c :: rest) || listContains needle rest

/-- `substrOf needle hay`: Python `needle in hay` for strings. -/
def substrOf (needle hay : String) : Bool :=
  listContains needle.data hay.data

/-- Python `str.lower()` (character-wise lowering; the webhook only compares
against the ASCII keywords `approve` / `reject`). -/
def strLower (s : String) : String :=
  ⟨s.data.map Char.toLower⟩

/-- Python `str.strip()`: drop leading and trailing whitespace. -/
def strStrip (s : String) : String :=
  ⟨((s.data.dropWhile Char.isWhitespace).reverse.dropWhile Char.isWhitespace).reverse⟩

/-- Python slice `l[-n:]`: the last `n` elements (the whole list when it is
shorter than `n`). -/
def takeLast (n : Nat) (l : List α) : List α :=
  l.drop (l.length - n)

/-! ## Plan documents (Python dicts produced by the LLM / json.loads) -/

/-- A JSON-like value, the shape of the parsed plan document handled by
`_master_planner_node` and `_validate_plan` in `orchestrator.py`. -/
inductive PVal where
  | str : String → PVal
  | num : Int → PVal
  | obj : List (String × PVal) → PVal
  | arr : List PVal → PVal

/-- A Python dict with string keys, as an insertion-ordered association list
(dict keys are unique, so first-match lookup is faithful). -/
abbrev PObj := List (String × PVal)

/-- Python `plan[field]` / `field in plan` lookup. -/
def getKey (o : PObj) (k : String) : Option PVal :=
  match o with
  | [] => none
  | (k2, v) :: rest => if k2 = k then some v else getKey rest k

/-- Python `field in plan`. -/
def hasKey (o : PObj) (k : String) : Bool :=
  (getKey o k).isSome

/-- Python `dict[k] = v`: overwrite in place if the key exists (keeping its
position), otherwise append at the end. -/
def setKey (o : PObj) (k : String) (v : PVal) : PObj :=
  match o with
  | [] => [(k, v)]
  | (k2, v2) :: rest => if k2 = k then (k2, v) :: rest else (k2, v2) :: setKey rest k v

/-- Python `subfield in plan[field]` for the nested required-field check,
with the semantics of the `in` operator on each value shape: key membership
for a dict value, SUBSTRING containment for a string value, and element
equality for a list value (a string compares equal only to equal string
elements).  On a numeric value Python `in` raises `TypeError`; that case is
tracked separately by `validateRaisesTypeError` (the Bool returned here for
`num` is never reached without the exception). -/
def pvalHasKey (v : PVal) (k : String) : Bool :=
  match v with
  | .obj o => hasKey o k
  | .str s => substrOf k s
  | .arr a => a.any (fun e =>
      match e with
      | .str s => s == k
      | _ => false)
  | .num _ => false

/-! ## `_validate_plan` (orchestrator.py lines 283-311) -/

/-- The `required_fields` table of `_validate_plan`; the `location` entry has
no subfields (Python uses `None`, and `if subfields:` skips both `None` and an
empty list). -/
def requiredFields : List (String × List String) :=
  [("dates", ["departure_date", "return_date"]),
   ("flight", ["origin", "destination"]),
   ("hotel", ["location", "type"]),
   ("budget", ["total_per_person"]),
   ("location", [])]

/-- Whether the `_validate_plan` loop raises `TypeError`: some required field
with subfields is present with a numeric value, on which Python `in` is
undefined.  The exception propagates out of `_master_planner_node` (its
`try` only catches `json.JSONDecodeError`), so no plan and no error record
is produced for such a document; `missingOf` / `validatePlan` below describe
the loop only when this is false. -/
def validateRaisesTypeError (plan : PObj) : Bool :=
  requiredFields.any (fun fs =>
    !fs.2.isEmpty &&
      (match getKey plan fs.1 with
       | some (.num _) => true
       | _ => false))

/-- The entries one iteration of the `_validate_plan` loop appends to
`missing` for a required field: the bare field name if the field is absent
(its subfields are then not enumerated, Python `continue`); otherwise
`field.subfield` for each subfield failing the Python `in` test on the
field's value (`pvalHasKey`).  Note the loop never inspects the CONTENT of
a present value beyond that `in` test: an empty value passes, and a string
value passes whenever the subfield names occur in it as substrings. -/
def missingForField (plan : PObj) (fs : String × List String) : List String :=
  match getKey plan fs.1 with
  | none => [fs.1]
  | some v =>
      (fs.2.filter (fun sub => !(pvalHasKey v sub))).map
        (fun sub => fs.1 ++ "." ++ sub)

/-- The `missing` list accumulated by `_validate_plan` over all required
fields, in loop order. -/
def missingOf (plan : PObj) : List String :=
  requiredFields.foldl (fun missing fs => missing ++ missingForField plan fs) []

/-- `_validate_plan`: returns `(is_valid, error_message)`. -/
def validatePlan (plan : PObj) : Bool × Option String :=
  let missing := missingOf plan
  if missing.isEmpty then (true, none)
  else (false, some ("Missing required fields: " ++ String.intercalate ", " missing))

/-! ## Group-chat state (`GroupChatState` TypedDict + `run_volley` defaults) -/

/-- Message kind (`AIMessage` for agent turns, `SystemMessage` for rejection
notices). -/
inductive MsgKind where
  | ai
  | system
deriving DecidableEq

/-- One transcript message: `AIMessage(content=..., name=user.user_name)` or a
nameless `SystemMessage`. -/
structure Msg where
  kind : MsgKind
  name : Option String
  content : String
deriving DecidableEq

/-- A participant, the two fields of `UserProfile` the orchestrator's control
flow reads: `user_id` (routing / counters) and `user_name` (message names and
prompts).  Preference/memory fields only feed the LLM prompt text and are
elided. -/
structure UserP where
  userId : String
  userName : String
deriving DecidableEq

/-- The orchestrator's LangGraph state (`GroupChatState`), with the fields the
nodes read and write.  `agentMessageCounts` models the Python counter dict
through its `counts.get(uid, 0)` view. -/
structure GCState where
  messages : List Msg
  currentVolley : Nat
  messagesPerAgent : Nat
  activeAgent : Option String
  agentMessageCounts : String → Nat
  currentAgentIndex : Nat
  totalTurns : Nat
  currentPlan : Option PObj
  rejectionFeedback : Option String
  isComplete : Bool

/-- The fresh state built by `run_volley` when `initial_state is None`. -/
def initialState (messagesPerVolley : Nat) : GCState :=
  { messages := []
    currentVolley := 0
    messagesPerAgent := messagesPerVolley
    activeAgent := none
    agentMessageCounts := fun _ => 0
    currentAgentIndex := 0
    totalTurns := 0
    currentPlan := none
    rejectionFeedback := none
    isComplete := false }

/-! ## Turn routing (`route_supervisor`, orchestrator.py lines 127-142) -/

/-- The target of the conditional edge: the master-planner node or the node
`agent_<user_id>`. -/
inductive RouteTarget where
  | masterPlanner
  | agent (userId : String)
deriving DecidableEq

/-- `route_supervisor`: synthesize once `total_turns >= len(user_ids) *
messages_per_volley`, else the agent at `current_agent_index mod len`. -/
def routeSupervisor (userIds : List String) (messagesPerVolley : Nat)
    (s : GCState) : RouteTarget :=
  let expected := userIds.length * messagesPerVolley
  if expected ≤ s.totalTurns then .masterPlanner
  else .agent (userIds.getD (s.currentAgentIndex % userIds.length) "")

/-! ## Agent turns (`agent_node`, orchestrator.py lines 169-279) -/

/-- `is_first = (state.get("total_turns", 0) == 0)`: the initiator-vs-negotiator
prompt split in `agent_node`. -/
def isFirstTurn (s : GCState) : Bool :=
  s.totalTurns == 0

/-- The two prompt roles of `agent_node`. -/
inductive AgentRole where
  | initiator
  | negotiator
deriving DecidableEq

/-- The role `agent_node` assigns to the current turn. -/
def roleOf (s : GCState) : AgentRole :=
  if isFirstTurn s then .initiator else .negotiator

/-- One line of the chat-history context:
`f"{msg.name}: {msg.content}"` with `Unknown` for a missing name. -/
def msgLine (m : Msg) : String :=
  match m.name with
  | some n => n ++ ": " ++ m.content
  | none => "Unknown: " ++ m.content

/-- The windowed history used by `agent_node`: Python `messages[-20:]`
(comment in source: `# Last 20 messages for context`). -/
def historyWindow (msgs : List Msg) : List Msg :=
  takeLast 20 msgs

/-- `history_text` in `agent_node`: newline-joined lines over the last 20
messages, or the placeholder when the transcript is empty. -/
def historyText (msgs : List Msg) : String :=
  if msgs.isEmpty then "No messages yet"
  else String.intercalate "\n" ((historyWindow msgs).map msgLine)

mutual

/-- Rendering of a `PVal` used for `current_plan_text` (stands in for Python
`json.dumps(plan, indent=2)`; the exact whitespace plays no role in any
claim). -/
def pvalDump : PVal → String
  | .str s => "\x22" ++ s ++ "\x22"
  | .num n => toString n
  | .obj o => "\x7b" ++ pobjDump o ++ "\x7d"
  | .arr a => "[" ++ parrDump a ++ "]"

def pobjDump : List (String × PVal) → String
  | [] => ""
  | (k, v) :: rest =>
      "\x22" ++ k ++ "\x22: " ++ pvalDump v ++
        (if rest.isEmpty then "" else ", ") ++ pobjDump rest

def parrDump : List PVal → String
  | [] => ""
  | v :: rest =>
      pvalDump v ++ (if rest.isEmpty then "" else ", ") ++ parrDump rest

end

/-- `current_plan_text` in `agent_node`: the dumped plan or `"None yet"`. -/
def planContextText (s : GCState) : String :=
  match s.currentPlan with
  | some p => pvalDump (.obj p)
  | none => "None yet"

/-- The initiator system prompt of `agent_node` (`is_first` branch).  The
profile/memory filler text between the name and the instructions does not
affect any claim and is compressed; the structure (no plan context, no chat
history) matches the source. -/
def initiatorPrompt (u : UserP) : String :=
  "You are an AI travel planning agent representing " ++ u.userName ++
  ".\n\nYou are the FIRST agent in this group chat. Your role is to CREATE AN INITIAL TRAVEL PLAN PROPOSAL.\n\nCreate an initial plan proposal that includes dates, flight details, hotel details, budget and destination."

/-- The negotiator system prompt of `agent_node` (the `else` branch): includes
the current plan context and the recent chat history. -/
def negotiatorPrompt (u : UserP) (planCtx histCtx : String) : String :=
  "You are an AI travel planning agent representing " ++ u.userName ++
  " in a group travel planning discussion.\n\nYour role is to advocate for your user while being collaborative.\n\nCurrent Plan Being Discussed:\n" ++
  planCtx ++ "\n\nRecent Chat History:\n" ++ histCtx ++
  "\n\nProvide constructive feedback."

/-- Python truthiness of `state.get("rejection_feedback")`: set and non-empty. -/
def feedbackActive : Option String → Bool
  | none => false
  | some f => f ≠ ""

/-- The rejection-feedback block appended to every agent prompt when
`rejection_feedback` is truthy. -/
def feedbackSuffix (f : String) : String :=
  "\n\nIMPORTANT: The previous plan was rejected with this feedback:\n" ++ f ++
  "\n\nAddress these concerns in your response."

/-- The complete system prompt `agent_node` sends to the LLM for user `u` in
state `s`. -/
def systemPromptFor (u : UserP) (s : GCState) : String :=
  let base :=
    match roleOf s with
    | .initiator => initiatorPrompt u
    | .negotiator => negotiatorPrompt u (planContextText s) (historyText s.messages)
  match s.rejectionFeedback with
  | some f => if f = "" then base else base ++ feedbackSuffix f
  | none => base

/-- The `AIMessage(content=..., name=user.user_name)` an agent turn appends. -/
def mkAgentMsg (u : UserP) (content : String) : Msg :=
  { kind := .ai, name := some u.userName, content := content }

/-- The state update returned by `agent_node` (merged by LangGraph:
`messages` appends, the scalar keys overwrite).  `content` is the LLM
response for this turn. -/
def agentNode (u : UserP) (content : String) (s : GCState) : GCState :=
  { s with
    messages := s.messages ++ [mkAgentMsg u content]
    agentMessageCounts := fun uid =>
      if uid = u.userId then s.agentMessageCounts u.userId + 1
      else s.agentMessageCounts uid
    totalTurns := s.totalTurns + 1
    currentAgentIndex := s.currentAgentIndex + 1
    activeAgent := some u.userId }

/-! ## Plan synthesis (`_master_planner_node`, orchestrator.py lines 313-447) -/

/-- The partial state update returned by `_master_planner_node`.  `parsed` is
the result of `json.loads` on the LLM output (`none` = `JSONDecodeError`);
`planId`, `createdAt` and `rawText` stand for `uuid`/`datetime` metadata and
the raw response text. -/
structure SynthUpdate where
  currentPlan : PObj
  isComplete : Bool

/-- `_master_planner_node`, as a function of the parsed LLM document:
parse failure yields an error plan with `is_complete = True`; a validation
failure yields an error plan with `is_complete = False` (source comment:
`# Don't complete, force retry`); success stamps metadata and sets
`status = "draft"` with `is_complete = True`. -/
def masterPlannerUpdate (parsed : Option PObj)
    (planId createdAt rawText : String) (userIds : List String) : SynthUpdate :=
  match parsed with
  | none =>
      { currentPlan :=
          [("error", .str "Failed to parse plan"),
           ("raw_response", .str rawText),
           ("plan_id", .str planId),
           ("status", .str "error")]
        isComplete := true }
  | some planDict =>
      if (validatePlan planDict).1 then
        { currentPlan :=
            setKey (setKey (setKey (setKey planDict
              "plan_id" (.str planId))
              "created_at" (.str createdAt))
              "status" (.str "draft"))
              "participants" (.arr (userIds.map PVal.str))
          isComplete := true }
      else
        { currentPlan :=
            [("error", .str "Plan validation failed"),
             ("details", .str ((validatePlan planDict).2.getD "")),
             ("status", .str "error")]
          isComplete := false }

/-- The LangGraph merge of the master planner's update into the state. -/
def masterPlannerNode (users : List UserP) (parsed : Option PObj)
    (planId createdAt rawText : String) (s : GCState) : GCState :=
  let u := masterPlannerUpdate parsed planId createdAt rawText (users.map UserP.userId)
  { s with currentPlan := some u.currentPlan, isComplete := u.isComplete }

/-! ## Graph execution (`run_volley` + the compiled StateGraph) -/

/-- The graph's dispatch from a node name `agent_<uid>` to the node built for
the user with that id (node names are dict keys, so ids are unique in any
well-formed orchestrator). -/
def findUser (users : List UserP) (uid : String) : UserP :=
  (users.find? (fun u => u.userId == uid)).getD { userId := "", userName := "" }

/-- Fueled execution of the turn loop: route via `route_supervisor`; stop at
the master-planner edge; otherwise run the selected agent node and loop.
`content j` is the LLM response for the turn with `total_turns = j`. -/
def runTurnsFuel (users : List UserP) (K : Nat) (content : Nat → String) :
    Nat → GCState → GCState
  | 0, s => s
  | fuel + 1, s =>
      match routeSupervisor (users.map UserP.userId) K s with
      | .masterPlanner => s
      | .agent uid =>
          runTurnsFuel users K content fuel
            (agentNode (findUser users uid) (content s.totalTurns) s)

/-- `run_volley` from a given initial state: the graph loops through agent
turns until the router selects the master planner, which runs once and ends
the graph.  `users.length * K` fuel always reaches the master-planner edge
from a zero-turn state. -/
def runVolley (users : List UserP) (K : Nat) (content : Nat → String)
    (parsed : Option PObj) (planId createdAt rawText : String)
    (s : GCState) : GCState :=
  masterPlannerNode users parsed planId createdAt rawText
    (runTurnsFuel users K content (users.length * K) s)

/-! ## Rejection handling (`handle_rejection`, orchestrator.py lines 483-520) -/

/-- The `SystemMessage` that `handle_rejection` appends to the transcript. -/
def rejectionMsg (feedback userId : String) : Msg :=
  { kind := .system, name := none,
    content := "[USER " ++ userId ++ " FEEDBACK] Plan rejected: " ++ feedback }

/-- `handle_rejection(current_state, feedback, user_id)`: append the system
feedback message, set `rejection_feedback`, bump the volley, zero the
counters and the cursor, clear `is_complete`.  `current_plan` is NOT touched
by the source. -/
def handleRejection (users : List UserP) (s : GCState)
    (feedback userId : String) : GCState :=
  { s with
    messages := s.messages ++ [rejectionMsg feedback userId]
    rejectionFeedback := some feedback
    currentVolley := s.currentVolley + 1
    agentMessageCounts := fun _ => 0
    currentAgentIndex := 0
    totalTurns := 0
    isComplete := false }

/-! ## The approval-distribution gate (`start_group_chat`, api.py lines 122-181) -/

/-- Python `final_state.get("current_plan") and "error" not in
final_state["current_plan"]`: a present, non-empty plan dict without an
`error` key. -/
def planAcceptableForApproval (plan : Option PObj) : Bool :=
  match plan with
  | none => false
  | some p => !p.isEmpty && !hasKey p "error"

/-- The session status `start_group_chat` records after the first volley:
`pending_approval` (plan emailed out for approval) or `error`. -/
def sessionStatus (finalState : GCState) : String :=
  if planAcceptableForApproval finalState.currentPlan then "pending_approval"
  else "error"

/-! ## Approval tracking (`update_approval_state`, database.py lines 401-452) -/

/-- One entry of the session's `approval_state` dict (the timestamp it also
stores is never read by the aggregation). -/
structure ApprovalEntry where
  approved : Bool
  feedback : Option String
deriving DecidableEq

/-- The `approval_state` dict, keyed by user id. -/
abbrev ApprovalMap := List (String × ApprovalEntry)

/-- Dict lookup in `approval_state`. -/
def lookupA (m : ApprovalMap) (uid : String) : Option ApprovalEntry :=
  match m with
  | [] => none
  | (k, e) :: rest => if k = uid then some e else lookupA rest uid

/-- Dict assignment `approval_state[user_id] = {...}`. -/
def setA (m : ApprovalMap) (uid : String) (e : ApprovalEntry) : ApprovalMap :=
  match m with
  | [] => [(uid, e)]
  | (k, e2) :: rest =>
      if k = uid then (k, e) :: rest else (k, e2) :: setA rest uid e

/-- `approval_state.get(uid, {}).get("approved", False)`. -/
def entryApprovedTrue (m : ApprovalMap) (uid : String) : Bool :=
  match lookupA m uid with
  | some e => e.approved
  | none => false

/-- `approval_state.get(uid, {}).get("approved") == False and
approval_state.get(uid, {}).get("feedback")` (Python truthiness: the feedback
must be present and non-empty). -/
def entryRejectedWithFeedback (m : ApprovalMap) (uid : String) : Bool :=
  match lookupA m uid with
  | some e =>
      !e.approved &&
        (match e.feedback with
         | some f => f ≠ ""
         | none => false)
  | none => false

/-- `update_approval_state` for an existing session: record (upsert) the
decision, then aggregate `all_approved` / `any_rejected` over the registered
`chat_session.user_ids`.  Returns the updated map and both flags. -/
def updateApprovalState (registryIds : List String) (m : ApprovalMap)
    (uid : String) (approved : Bool) (feedback : Option String) :
    ApprovalMap × Bool × Bool :=
  let m2 := setA m uid { approved := approved, feedback := feedback }
  (m2,
   registryIds.all (fun u => entryApprovedTrue m2 u),
   registryIds.any (fun u => entryRejectedWithFeedback m2 u))

/-! ## Webhook reply classification (`handle_agentmail_webhook`, main.py
lines 199-212) -/

/-- The webhook's three outcomes for a correlated reply. -/
inductive WebhookAction where
  | approved
  | rejected (feedback : String)
  | unclear
deriving DecidableEq

/-- The reply parsing of `handle_agentmail_webhook`: `"approve" in
reply.lower()` wins first; else `"reject" in reply.lower()` with the stripped
reply as feedback; else `unclear_response`. -/
def classifyReply (reply : String) : WebhookAction :=
  let lower := strLower reply
  if substrOf "approve" lower then .approved
  else if substrOf "reject" lower then .rejected (strStrip reply)
  else .unclear

/-- The approval-state change the webhook performs for a correlated reply
(`handle_plan_approval` / `handle_plan_rejection` both call
`update_approval_state`); an unclear reply performs none. -/
def webhookStateChange (registryIds : List String) (m : ApprovalMap)
    (uid : String) (reply : String) : ApprovalMap :=
  match classifyReply reply with
  | .approved => (updateApprovalState registryIds m uid true none).1
  | .rejected fb => (updateApprovalState registryIds m uid false (some fb)).1
  | .unclear => m

/-! ## Booking fan-out (`trigger_parallel_bookings` / `book_for_user`,
main.py lines 286-492) -/

/-- The onboarding fields `book_for_user` checks before attempting a booking. -/
structure BookUser where
  userId : String
  email : String
  hasExpediaCredentials : Bool
  hasPaymentDetails : Bool
  hasContactInfo : Bool
deriving DecidableEq

/-- The outcome of one user's browser-booking attempt (the external
collaborator): normal completion or a raised exception. -/
inductive BookAttempt where
  | ok
  | exn (msg : String)
deriving DecidableEq

/-- One per-participant `BookingResult` dict. -/
structure BookingResult where
  userId : String
  email : String
  success : Bool
  error : Option String
deriving DecidableEq

/-- `book_for_user`: credential precondition checks, then the booking attempt
inside `try/except`.  The second component records whether the booking call
was attempted at all. -/
def bookForUser (attempt : BookUser → BookAttempt) (u : BookUser) :
    BookingResult × Bool :=
  if !u.hasExpediaCredentials then
    ({ userId := u.userId, email := u.email, success := false,
       error := some "No Expedia credentials provided" }, false)
  else if !u.hasPaymentDetails then
    ({ userId := u.userId, email := u.email, success := false,
       error := some "No payment details provided" }, false)
  else if !u.hasContactInfo then
    ({ userId := u.userId, email := u.email, success := false,
       error := some "No contact info provided" }, false)
  else
    match attempt u with
    | .ok =>
        ({ userId := u.userId, email := u.email, success := true,
           error := none }, true)
    | .exn m =>
        ({ userId := u.userId, email := u.email, success := false,
           error := some m }, true)

/-- `asyncio.gather(*[book_for_user(u) for u in user_profiles],
return_exceptions=True)`: an independent fan-out producing one result per
user, in registration order. -/
def triggerParallelBookings (attempt : BookUser → BookAttempt)
    (users : List BookUser) : List BookingResult :=
  users.map (fun u => (bookForUser attempt u).1)

/-! ## Concrete fixtures used by counterexamples and witnesses -/

/-- A small synthesized plan, as stored in `current_plan` after a successful
round. -/
def donePlan : PObj :=
  [("location", PVal.str "Paris"), ("status", PVal.str "draft")]

/-- A state at the end of a completed round 0 for the single participant
`alice`: one turn taken, a plan synthesized, `is_complete = True`. -/
def doneState : GCState :=
  { messages := [{ kind := .ai, name := some "Alice", content := "hi" }]
    currentVolley := 0
    messagesPerAgent := 1
    activeAgent := some "alice"
    agentMessageCounts := fun _ => 1
    currentAgentIndex := 1
    totalTurns := 1
    currentPlan := some donePlan
    rejectionFeedback := none
    isComplete := true }

/-- The `alice` participant used by concrete instances. -/
def aliceU : UserP := { userId := "alice", userName := "Alice" }

/-- A post-rejection session operation: one agent turn (with the LLM's
response text) or one synthesis step (with the parsed LLM document and
metadata).  `handle_rejection` is the only writer of `rejection_feedback`,
and it is deliberately excluded here. -/
inductive SessionOp where
  | turn (u : UserP) (content : String)
  | synth (parsed : Option PObj) (planId createdAt rawText : String)

/-- Apply one session operation to the state. -/
def applyOp (users : List UserP) (s : GCState) : SessionOp → GCState
  | .turn u c => agentNode u c s
  | .synth p planId createdAt rawText =>
      masterPlannerNode users p planId createdAt rawText s

/-- Apply a sequence of session operations. -/
def applyOps (users : List UserP) (s : GCState) (ops : List SessionOp) : GCState :=
  ops.foldl (fun st op => applyOp users st op) s

/-- The out-of-registry placeholder participant (`find?` fallback; never hit
on the executed paths, which stay inside the registry). -/
def defaultU : UserP := { userId := "", userName := "" }

/-- The participant scheduled for the turn with `total_turns = j` in a fresh
round: registration index `j mod N`. -/
def speakerAt (users : List UserP) (j : Nat) : UserP :=
  users.getD (j % users.length) defaultU

/-- The transcript produced by the first `j` turns of a fresh round. -/
def expectedMsgs (users : List UserP) (content : Nat → String) (j : Nat) :
    List Msg :=
  (List.range j).map (fun i => mkAgentMsg (speakerAt users i) (content i))

/-- The per-participant turn counts after the first `j` turns of a fresh
round. -/
def countsIn (users : List UserP) (j : Nat) (uid : String) : Nat :=
  ((List.range j).map (fun i => (speakerAt users i).userId)).count uid

/-- A transcript of 21 distinct messages. -/
def msgs21 : List Msg :=
  (List.range 21).map
    (fun i => { kind := .ai, name := some "Alice", content := "m" ++ toString i })

def bookA : BookUser :=
  { userId := "a", email := "a@x.io", hasExpediaCredentials := true,
    hasPaymentDetails := true, hasContactInfo := true }

def bookB : BookUser :=
  { userId := "b", email := "b@x.io", hasExpediaCredentials := true,
    hasPaymentDetails := true, hasContactInfo := true }

def bookC : BookUser :=
  { userId := "c", email := "c@x.io", hasExpediaCredentials := false,
    hasPaymentDetails := true, hasContactInfo := true }

/-- A booking oracle where participant `b`'s browser call raises. -/
def attemptBoom : BookUser → BookAttempt :=
  fun u => if u.userId = "b" then .exn "boom" else .ok

/-- A document that a validation-missing run produces: everything absent. -/
def emptyDoc : PObj := []

/-- A synthesized document whose `dates` field is a STRING, not a dict: the
key paths `dates.departure_date` / `dates.return_date` are absent, yet both
subfield names occur in the string, so Python `subfield in plan["dates"]`
(a substring test) succeeds for both. -/
def strDatesPlan : PObj :=
  [("dates", .str "departure_date: 2025-06-01, return_date: 2025-06-10"),
   ("flight", .obj [("origin", .str "SFO"), ("destination", .str "CDG")]),
   ("hotel", .obj [("location", .str "Paris"), ("type", .str "hotel")]),
   ("budget", .obj [("total_per_person", .num 2000)]),
   ("location", .str "Paris")]

/-- A synthesized document whose required keys are all present but whose
required `dates.departure_date` value is the EMPTY string. -/
def emptyDatePlan : PObj :=
  [("dates", .obj [("departure_date", .str ""), ("return_date", .str "2025-06-10")]),
   ("flight", .obj [("origin", .str "SFO"), ("destination", .str "CDG")]),
   ("hotel", .obj [("location", .str "Paris"), ("type", .str "hotel")]),
   ("budget", .obj [("total_per_person", .num 2000)]),
   ("location", .str "Paris")]

/-- The `bob` participant used by concrete instances. -/
def bobU : UserP := { userId := "bob", userName := "Bob" }

/-!
# Claims

## C3 — rejection reset
-/

/-- Claim C3 (amended): after `handle_rejection`, the volley number increments
by exactly 1, every per-participant turn count is 0, `total_turns` and the
cursor are 0, the transcript grows by exactly the one appended system
feedback utterance recording the user and the feedback, `rejection_feedback`
is set, `is_complete` is false — and `current_plan` is left unchanged (the
source does not clear it; the original claim's "current_plan is null" fails,
see the counterexample). -/
theorem claim3_rejection_reset (users : List UserP) (s : GCState)
    (f uid : String) :
    (handleRejection users s f uid).currentVolley = s.currentVolley + 1 ∧
    (∀ u, (handleRejection users s f uid).agentMessageCounts u = 0) ∧
    (handleRejection users s f uid).totalTurns = 0 ∧
    (handleRejection users s f uid).currentAgentIndex = 0 ∧
    (handleRejection users s f uid).messages.length = s.messages.length + 1 ∧
    (handleRejection users s f uid).messages =
      s.messages ++ [rejectionMsg f uid] ∧
    (handleRejection users s f uid).rejectionFeedback = some f ∧
    (handleRejection users s f uid).isComplete = false ∧
    (handleRejection users s f uid).currentPlan = s.currentPlan := by
  refine ⟨rfl, fun u => rfl, rfl, rfl, ?_, rfl, rfl, rfl, rfl⟩
  simp [handleRejection]

/-- Claim C3 counterexample: applying a rejection to a completed round whose
`current_plan` is a plan leaves `current_plan` equal to that same plan — it
is not null afterwards, contradicting the claim's "current_plan is null". -/
theorem claim3_counterexample :
    (handleRejection [aliceU] doneState "too expensive" "alice").currentPlan =
      some donePlan ∧
    (handleRejection [aliceU] doneState "too expensive" "alice").currentPlan ≠
      none := by
  exact ⟨rfl, fun h => Option.noConfusion h⟩

/-! ## C6 — role assignment by turn ordinal -/

/-- Claim C6 (amended): the initiator role is used exactly on turns with
`total_turns == 0` — that is, on the first turn of EVERY round, including the
round started by a rejection (whose reset sets `total_turns` back to 0); all
other turns use the negotiator role.  The original claim's "only in round 0"
fails, see the counterexample. -/
theorem claim6_role_by_total_turns (users : List UserP) (s : GCState)
    (f uid : String) :
    (roleOf s = .initiator ↔ s.totalTurns = 0) ∧
    (s.totalTurns ≠ 0 → roleOf s = .negotiator) ∧
    roleOf (handleRejection users s f uid) = .initiator := by
  refine ⟨?_, ?_, rfl⟩
  · by_cases h : s.totalTurns = 0 <;> simp [roleOf, isFirstTurn, h]
  · intro h
    simp [roleOf, isFirstTurn, h]

/-- Claim C6 witness: a concrete non-first turn is a negotiator turn, and the
turn right after a concrete rejection is an initiator turn. -/
theorem claim6_witness :
    doneState.totalTurns ≠ 0 ∧
    roleOf doneState = .negotiator ∧
    roleOf (handleRejection [aliceU] doneState "f" "alice") = .initiator := by
  exact ⟨by decide,
    (claim6_role_by_total_turns [aliceU] doneState "f" "alice").2.1 (by decide),
    (claim6_role_by_total_turns [aliceU] doneState "f" "alice").2.2⟩

/-- Claim C6 counterexample: after a rejection the state is in volley 1 (a
round after round 0), yet its first turn uses the initiator role — the
initiator role is NOT used only in round 0. -/
theorem claim6_counterexample :
    (handleRejection [aliceU] doneState "budget too high" "alice").currentVolley
      = 1 ∧
    roleOf (handleRejection [aliceU] doneState "budget too high" "alice") =
      .initiator := by
  exact ⟨rfl, rfl⟩

/-! ## C7 — transcript windowing in agent prompts -/

/-- Claim C7 (amended): the chat-history context assembled for a negotiator
turn contains only the LAST 20 transcript messages (`messages[-20:]`), not
the full transcript: the window has length `min len 20`, equals the full
transcript only when it has at most 20 messages, and is always a suffix.
The prompt of a negotiator turn is built from that window. -/
theorem claim7_history_window (msgs : List Msg) (u : UserP) (s : GCState) :
    (historyWindow msgs).length = min msgs.length 20 ∧
    (msgs.length ≤ 20 → historyWindow msgs = msgs) ∧
    (historyWindow msgs) <:+ msgs ∧
    (roleOf s = .negotiator → s.rejectionFeedback = none →
      systemPromptFor u s =
        negotiatorPrompt u (planContextText s) (historyText s.messages)) := by
  refine ⟨?_, ?_, ?_, ?_⟩
  · simp [historyWindow, takeLast, List.length_drop]
    omega
  · intro h
    have h0 : msgs.length - 20 = 0 := by omega
    simp [historyWindow, takeLast, h0]
  · exact List.drop_suffix _ _
  · intro hrole hfb
    simp [systemPromptFor, hrole, hfb]

/-- Claim C7 witness: a concrete short transcript is kept whole, and a
concrete negotiator prompt is exactly the negotiator prompt over the
(windowed) history. -/
theorem claim7_witness :
    doneState.messages.length ≤ 20 ∧
    historyWindow doneState.messages = doneState.messages ∧
    roleOf doneState = .negotiator ∧
    systemPromptFor aliceU doneState =
      negotiatorPrompt aliceU (planContextText doneState)
        (historyText doneState.messages) := by
  exact ⟨by decide,
    (claim7_history_window doneState.messages aliceU doneState).2.1 (by decide),
    by decide,
    (claim7_history_window doneState.messages aliceU doneState).2.2.2
      (by decide) rfl⟩

/-- Claim C7 counterexample: on a 21-message transcript the assembled history
window holds 20 messages and the first transcript message is absent from it —
the prompt context does NOT contain the full transcript. -/
theorem claim7_counterexample :
    msgs21.length = 21 ∧
    (historyWindow msgs21).length = 20 ∧
    msgs21.head? = some { kind := .ai, name := some "Alice", content := "m0" } ∧
    ({ kind := .ai, name := some "Alice", content := "m0" } : Msg) ∉
      historyWindow msgs21 := by
  decide

/-! ## C8 — booking fan-out independence -/

/-- Claim C8: dispatching bookings for N participants yields exactly N
per-participant results; the booking call is attempted exactly when all
three credential fields are present; a participant missing Expedia
credentials gets a failed result with a missing-credentials error and no
attempt; each result slot is a function of that participant alone, so a
changed/raised outcome for one participant (here: `attempt` vs `attempt2`)
never affects a sibling whose own outcome agrees; and an exception inside a
participant's booking call is caught into that participant's failed result. -/
theorem claim8_booking_fanout (users : List BookUser)
    (attempt attempt2 : BookUser → BookAttempt) :
    (triggerParallelBookings attempt users).length = users.length ∧
    (∀ u, (bookForUser attempt u).2 =
      (u.hasExpediaCredentials && u.hasPaymentDetails && u.hasContactInfo)) ∧
    (∀ u, u.hasExpediaCredentials = false →
      bookForUser attempt u =
        ({ userId := u.userId, email := u.email, success := false,
           error := some "No Expedia credentials provided" }, false)) ∧
    (∀ i : Nat, (triggerParallelBookings attempt users)[i]? =
      (users[i]?).map (fun u => (bookForUser attempt u).1)) ∧
    (∀ (i : Nat) (u : BookUser), users[i]? = some u → attempt u = attempt2 u →
      (triggerParallelBookings attempt users)[i]? =
        (triggerParallelBookings attempt2 users)[i]?) ∧
    (∀ u m, u.hasExpediaCredentials = true → u.hasPaymentDetails = true →
      u.hasContactInfo = true → attempt u = .exn m →
      (bookForUser attempt u).1 =
        { userId := u.userId, email := u.email, success := false,
          error := some m }) := by
  refine ⟨?_, ?_, ?_, ?_, ?_, ?_⟩
  · simp [triggerParallelBookings]
  · intro u
    by_cases h1 : u.hasExpediaCredentials <;>
      by_cases h2 : u.hasPaymentDetails <;>
      by_cases h3 : u.hasContactInfo <;>
      simp [bookForUser, h1, h2, h3]
    cases h : attempt u <;> simp
  · intro u h
    simp [bookForUser, h]
  · intro i
    simp [triggerParallelBookings, List.getElem?_map]
  · intro i u hu heq
    simp [triggerParallelBookings, List.getElem?_map, hu, bookForUser, heq]
  · intro u m h1 h2 h3 hex
    simp [bookForUser, h1, h2, h3, hex]

/-- Claim C8 witness: three participants, `b`'s call raises, `c` has no
Expedia credentials — the result array has length 3, `b` fails with the
caught exception, `c` fails with the missing-credentials error and no call
attempted, and `a` succeeds untouched. -/
theorem claim8_witness :
    bookC.hasExpediaCredentials = false ∧
    (triggerParallelBookings attemptBoom [bookA, bookB, bookC]).length = 3 ∧
    bookForUser attemptBoom bookC =
      ({ userId := "c", email := "c@x.io", success := false,
         error := some "No Expedia credentials provided" }, false) ∧
    (triggerParallelBookings attemptBoom [bookA, bookB, bookC])[1]? =
      some { userId := "b", email := "b@x.io", success := false,
             error := some "boom" } ∧
    (triggerParallelBookings attemptBoom [bookA, bookB, bookC])[0]? =
      some { userId := "a", email := "a@x.io", success := true, error := none } := by
  refine ⟨by decide, ?_, ?_, by decide, by decide⟩
  · exact (claim8_booking_fanout [bookA, bookB, bookC] attemptBoom attemptBoom).1
  · exact (claim8_booking_fanout [bookA, bookB, bookC] attemptBoom
      attemptBoom).2.2.1 bookC (by decide)

/-! ## C9 — webhook reply classification -/

/-- Claim C9: in the inbound webhook, a reply whose lowercased text contains
`approve` anywhere is classified as an approval before the rejection check
(so a reply containing both keywords is recorded as an approval, never a
rejection), and a reply containing neither keyword is classified
`unclear_response` and performs no approval-state change. -/
theorem claim9_webhook_classification (reply : String)
    (registryIds : List String) (m : ApprovalMap) (uid : String) :
    (substrOf "approve" (strLower reply) = true →
      classifyReply reply = .approved) ∧
    (substrOf "approve" (strLower reply) = false →
      substrOf "reject" (strLower reply) = false →
      classifyReply reply = .unclear ∧
      webhookStateChange registryIds m uid reply = m) := by
  constructor
  · intro h
    simp [classifyReply, h]
  · intro h1 h2
    refine ⟨?_, ?_⟩
    · simp [classifyReply, h1, h2]
    · simp [webhookStateChange, classifyReply, h1, h2]

/-- Claim C9 witness: a reply containing both `approve` and `reject` is
classified as an approval, and a reply with neither keyword is unclear and
leaves the approval map untouched. -/
theorem claim9_witness :
    substrOf "approve" (strLower "We do not approve, reject this") = true ∧
    substrOf "reject" (strLower "We do not approve, reject this") = true ∧
    classifyReply "We do not approve, reject this" = .approved ∧
    substrOf "approve" (strLower "sounds good") = false ∧
    substrOf "reject" (strLower "sounds good") = false ∧
    classifyReply "sounds good" = .unclear ∧
    webhookStateChange ["alice"] [] "alice" "sounds good" = [] := by
  refine ⟨by decide, by decide, ?_, by decide, by decide, ?_, ?_⟩
  · exact (claim9_webhook_classification "We do not approve, reject this"
      ["alice"] [] "alice").1 (by decide)
  · exact ((claim9_webhook_classification "sounds good"
      ["alice"] [] "alice").2 (by decide) (by decide)).1
  · exact ((claim9_webhook_classification "sounds good"
      ["alice"] [] "alice").2 (by decide) (by decide)).2

/-! ## C10 — rejection feedback is never cleared -/

lemma applyOp_rejectionFeedback (users : List UserP) (s : GCState)
    (op : SessionOp) :
    (applyOp users s op).rejectionFeedback = s.rejectionFeedback := by
  cases op <;> rfl

lemma applyOps_rejectionFeedback (users : List UserP) (ops : List SessionOp) :
    ∀ s : GCState, (applyOps users s ops).rejectionFeedback = s.rejectionFeedback := by
  induction ops with
  | nil => intro s; rfl
  | cons op rest ih =>
      intro s
      show (applyOps users (applyOp users s op) rest).rejectionFeedback = _
      rw [ih, applyOp_rejectionFeedback]

lemma runTurnsFuel_rejectionFeedback (users : List UserP) (K : Nat)
    (content : Nat → String) :
    ∀ (fuel : Nat) (s : GCState),
      (runTurnsFuel users K content fuel s).rejectionFeedback =
        s.rejectionFeedback := by
  intro fuel
  induction fuel with
  | zero => intro s; rfl
  | succ f ih =>
      intro s
      show (match routeSupervisor (users.map UserP.userId) K s with
            | .masterPlanner => s
            | .agent uid =>
                runTurnsFuel users K content f
                  (agentNode (findUser users uid) (content s.totalTurns) s)).rejectionFeedback = _
      cases routeSupervisor (users.map UserP.userId) K s with
      | masterPlanner => rfl
      | agent uid => rw [ih]; rfl

lemma listContains_nil (hay : List Char) : listContains [] hay = true := by
  cases hay <;> simp [listContains]

lemma listContains_append_middle (n : List Char) :
    ∀ a b : List Char, listContains n (a ++ n ++ b) = true := by
  intro a
  induction a with
  | nil =>
      intro b
      cases n with
      | nil => exact listContains_nil b
      | cons c n' =>
          show listContains (c :: n') (c :: (n' ++ b)) = true
          have hpre : (c :: n').isPrefixOf (c :: n' ++ b) = true :=
            List.isPrefixOf_iff_prefix.mpr (List.prefix_append (c :: n') b)
          simp [listContains, hpre]
  | cons x a' ih =>
      intro b
      show listContains n (x :: (a' ++ n ++ b)) = true
      simp [listContains]
      exact Or.inr (by simpa using ih b)

lemma substrOf_append_middle (n a b : String) :
    substrOf n (a ++ n ++ b) = true := by
  show listContains n.data ((a ++ n ++ b).data) = true
  have hd : (a ++ n ++ b).data = a.data ++ n.data ++ b.data := rfl
  rw [hd]
  exact listContains_append_middle n.data a.data b.data

lemma substrOf_mem_concat (f x s1 s2 : String) :
    substrOf f (x ++ (s1 ++ f ++ s2)) = true := by
  show listContains f.data ((x ++ (s1 ++ f ++ s2)).data) = true
  have hd : (x ++ (s1 ++ f ++ s2)).data = (x.data ++ s1.data) ++ f.data ++ s2.data := by
    show x.data ++ ((s1.data ++ f.data) ++ s2.data) = _
    simp [List.append_assoc]
  rw [hd]
  exact listContains_append_middle f.data (x.data ++ s1.data) s2.data

/-- Claim C10: once `handle_rejection` sets `rejection_feedback`, no
subsequent operation clears it — agent turns, plan synthesis, any sequence
of both, and the turn loop all preserve it — and every later agent system
prompt (in any role, in any later round) contains the feedback text. -/
theorem claim10_feedback_persistence (users : List UserP) (s : GCState)
    (f uid : String) (ops : List SessionOp) (u : UserP) (K fuel : Nat)
    (content : Nat → String) (parsed : Option PObj)
    (planId createdAt rawText : String) (f2 uid2 : String) :
    (applyOps users (handleRejection users s f uid) ops).rejectionFeedback =
      some f ∧
    substrOf f
      (systemPromptFor u (applyOps users (handleRejection users s f uid) ops)) =
      true ∧
    (runTurnsFuel users K content fuel
      (handleRejection users s f uid)).rejectionFeedback = some f ∧
    (runVolley users K content parsed planId createdAt rawText
      (handleRejection users s f uid)).rejectionFeedback = some f ∧
    (handleRejection users (applyOps users (handleRejection users s f uid) ops)
      f2 uid2).rejectionFeedback = some f2 := by
  have hfb : (applyOps users (handleRejection users s f uid) ops).rejectionFeedback
      = some f := by
    rw [applyOps_rejectionFeedback]; rfl
  refine ⟨hfb, ?_, ?_, ?_, rfl⟩
  · unfold systemPromptFor
    rw [hfb]
    by_cases hf : f = ""
    · subst hf
      simp only [if_pos rfl]
      exact listContains_nil _
    · simp only [if_neg hf]
      unfold feedbackSuffix
      exact substrOf_mem_concat f _ _ _
  · rw [runTurnsFuel_rejectionFeedback]; rfl
  · unfold runVolley
    show (masterPlannerNode users parsed planId createdAt rawText _).rejectionFeedback = _
    unfold masterPlannerNode
    simp only
    rw [show ∀ t : GCState, ({ t with
        currentPlan := some (masterPlannerUpdate parsed planId createdAt rawText
          (users.map UserP.userId)).currentPlan,
        isComplete := (masterPlannerUpdate parsed planId createdAt rawText
          (users.map UserP.userId)).isComplete } : GCState).rejectionFeedback =
        t.rejectionFeedback from fun t => rfl]
    rw [runTurnsFuel_rejectionFeedback]
    rfl

/-! ## C4 — approval aggregation -/

lemma lookupA_setA_self (m : ApprovalMap) (uid : String) (e : ApprovalEntry) :
    lookupA (setA m uid e) uid = some e := by
  induction m with
  | nil => simp [setA, lookupA]
  | cons kv rest ih =>
      by_cases h : kv.1 = uid
      · simp [setA, h, lookupA]
      · simp [setA, h, lookupA, ih]

lemma lookupA_setA_ne (m : ApprovalMap) (uid v : String) (e : ApprovalEntry)
    (h : v ≠ uid) : lookupA (setA m uid e) v = lookupA m v := by
  induction m with
  | nil =>
      have huv : ¬uid = v := fun hh => h hh.symm
      simp [setA, lookupA, huv]
  | cons kv rest ih =>
      obtain ⟨k, e2⟩ := kv
      by_cases hk : k = uid
      · subst hk
        have hkv : ¬k = v := fun hh => h hh.symm
        simp [setA, lookupA, hkv]
      · by_cases hv : k = v
        · subst hv
          simp [setA, lookupA, hk]
        · simp [setA, lookupA, hk, hv, ih]

lemma all_congr_here {α} {p q : α → Bool} (l : List α)
    (h : ∀ a ∈ l, p a = q a) : l.all p = l.all q := by
  rw [Bool.eq_iff_iff, List.all_eq_true, List.all_eq_true]
  constructor
  · intro hall a ha
    rw [← h a ha]
    exact hall a ha
  · intro hall a ha
    rw [h a ha]
    exact hall a ha

lemma any_congr_here {α} {p q : α → Bool} (l : List α)
    (h : ∀ a ∈ l, p a = q a) : l.any p = l.any q := by
  rw [Bool.eq_iff_iff, List.any_eq_true, List.any_eq_true]
  constructor
  · rintro ⟨a, ha, hp⟩
    exact ⟨a, ha, by rw [← h a ha]; exact hp⟩
  · rintro ⟨a, ha, hq⟩
    exact ⟨a, ha, by rw [h a ha]; exact hq⟩

lemma entryApprovedTrue_iff (m : ApprovalMap) (v : String) :
    entryApprovedTrue m v = true ↔
      ∃ e, lookupA m v = some e ∧ e.approved = true := by
  unfold entryApprovedTrue
  cases h : lookupA m v <;> simp [h]

lemma entryRejectedWithFeedback_iff (m : ApprovalMap) (v : String) :
    entryRejectedWithFeedback m v = true ↔
      ∃ e, lookupA m v = some e ∧ e.approved = false ∧
        ∃ fb, e.feedback = some fb ∧ fb ≠ "" := by
  unfold entryRejectedWithFeedback
  cases h : lookupA m v with
  | none => simp [h]
  | some e => cases hf : e.feedback <;> simp [h, hf]

/-- Claim C4: after recording a decision, `all_approved` is true iff every
registered participant has an `approved == true` entry in the updated map
(set-equality against the registry); `any_rejected` is true iff some
registered participant has an `approved == false` entry with present,
non-empty feedback; a rejection recorded without feedback never turns
`any_rejected` on; and a decision recorded for a user outside the registry
changes neither flag. -/
theorem claim4_approval_aggregation (registryIds : List String)
    (m : ApprovalMap) (uid : String) (approved : Bool)
    (feedback : Option String) :
    ((updateApprovalState registryIds m uid approved feedback).2.1 = true ↔
      ∀ v ∈ registryIds, ∃ e,
        lookupA (updateApprovalState registryIds m uid approved feedback).1 v =
          some e ∧ e.approved = true) ∧
    ((updateApprovalState registryIds m uid approved feedback).2.2 = true ↔
      ∃ v ∈ registryIds, ∃ e,
        lookupA (updateApprovalState registryIds m uid approved feedback).1 v =
          some e ∧ e.approved = false ∧ ∃ fb, e.feedback = some fb ∧ fb ≠ "") ∧
    (approved = false → feedback = none →
      (updateApprovalState registryIds m uid approved feedback).2.2 = true →
      registryIds.any (fun v => entryRejectedWithFeedback m v) = true) ∧
    (uid ∉ registryIds →
      (updateApprovalState registryIds m uid approved feedback).2.1 =
        registryIds.all (fun v => entryApprovedTrue m v) ∧
      (updateApprovalState registryIds m uid approved feedback).2.2 =
        registryIds.any (fun v => entryRejectedWithFeedback m v)) := by
  refine ⟨?_, ?_, ?_, ?_⟩
  · constructor
    · intro h v hv
      exact (entryApprovedTrue_iff _ v).mp (List.all_eq_true.mp h v hv)
    · intro h
      exact List.all_eq_true.mpr (fun v hv => (entryApprovedTrue_iff _ v).mpr (h v hv))
  · constructor
    · intro h
      obtain ⟨v, hv, hrej⟩ := List.any_eq_true.mp h
      exact ⟨v, hv, (entryRejectedWithFeedback_iff _ v).mp hrej⟩
    · intro h
      obtain ⟨v, hv, he⟩ := h
      exact List.any_eq_true.mpr ⟨v, hv, (entryRejectedWithFeedback_iff _ v).mpr he⟩
  · intro ha hf h
    subst ha; subst hf
    obtain ⟨v, hv, hrej⟩ := List.any_eq_true.mp h
    refine List.any_eq_true.mpr ⟨v, hv, ?_⟩
    by_cases hvu : v = uid
    · subst hvu
      exfalso
      rw [entryRejectedWithFeedback_iff] at hrej
      obtain ⟨e, he, _, fb, hfb, _⟩ := hrej
      rw [lookupA_setA_self] at he
      cases he
      cases hfb
    · rw [entryRejectedWithFeedback_iff] at hrej ⊢
      rwa [lookupA_setA_ne _ _ _ _ hvu] at hrej
  · intro hni
    constructor
    · refine all_congr_here _ (fun v hv => ?_)
      have hvu : v ≠ uid := fun h => hni (h ▸ hv)
      unfold entryApprovedTrue
      rw [lookupA_setA_ne m uid v _ hvu]
    · refine any_congr_here _ (fun v hv => ?_)
      have hvu : v ≠ uid := fun h => hni (h ▸ hv)
      unfold entryRejectedWithFeedback
      rw [lookupA_setA_ne m uid v _ hvu]

/-- Claim C4 witness: with registry `["a"]` where `a` has already rejected
with feedback, recording a decision for the unregistered user `z` leaves
`any_rejected` exactly the pre-existing aggregate (the out-of-registry
decision is not counted), and a feedback-less rejection by `z` cannot turn
the flag on by itself. -/
theorem claim4_witness :
    ("z" ∉ (["a"] : List String)) ∧
    (updateApprovalState ["a"]
        [("a", { approved := false, feedback := some "bad" })]
        "z" false none).2.2 =
      (["a"].any fun v =>
        entryRejectedWithFeedback
          [("a", { approved := false, feedback := some "bad" })] v) ∧
    (updateApprovalState ["a"]
        [("a", { approved := false, feedback := some "bad" })]
        "z" false none).2.1 =
      (["a"].all fun v =>
        entryApprovedTrue
          [("a", { approved := false, feedback := some "bad" })] v) := by
  refine ⟨by decide, ?_, ?_⟩
  · exact ((claim4_approval_aggregation ["a"]
      [("a", { approved := false, feedback := some "bad" })]
      "z" false none).2.2.2 (by decide)).2
  · exact ((claim4_approval_aggregation ["a"]
      [("a", { approved := false, feedback := some "bad" })]
      "z" false none).2.2.2 (by decide)).1

/-! ## C2 — the plan validation gate -/

lemma foldl_append_eq_flatten {α β} (l : List α) (g : α → List β) :
    ∀ acc : List β,
      l.foldl (fun a x => a ++ g x) acc = acc ++ (l.map g).flatten := by
  induction l with
  | nil => intro acc; simp
  | cons x t ih => intro acc; simp [ih, List.append_assoc]

lemma missingOf_eq_flatten (plan : PObj) :
    missingOf plan = (requiredFields.map (missingForField plan)).flatten := by
  unfold missingOf
  rw [foldl_append_eq_flatten]
  rfl

lemma missingForField_eq_nil_iff (plan : PObj) (fs : String × List String) :
    missingForField plan fs = [] ↔
      ∃ v, getKey plan fs.1 = some v ∧ ∀ sub ∈ fs.2, pvalHasKey v sub = true := by
  unfold missingForField
  cases h : getKey plan fs.1 with
  | none => simp [h]
  | some v => simp [h, List.filter_eq_nil_iff]

lemma missingOf_nil_iff (plan : PObj) :
    missingOf plan = [] ↔
      ∀ fs ∈ requiredFields, ∃ v, getKey plan fs.1 = some v ∧
        ∀ sub ∈ fs.2, pvalHasKey v sub = true := by
  rw [missingOf_eq_flatten, List.flatten_eq_nil_iff]
  constructor
  · intro h fs hfs
    exact (missingForField_eq_nil_iff plan fs).mp
      (h _ (List.mem_map.mpr ⟨fs, hfs, rfl⟩))
  · intro h l hl
    obtain ⟨fs, hfs, rfl⟩ := List.mem_map.mp hl
    exact (missingForField_eq_nil_iff plan fs).mpr (h fs hfs)

/-- Claim C2 (amended): on any document whose validation loop completes
without a `TypeError` (no required field holds a numeric value),
`_validate_plan` accepts iff every required top-level key is present and
every required subfield passes Python's `in` test on the field's value —
key membership for a dict value, SUBSTRING containment for a string value,
element equality for a list value; when the completed loop leaves a
non-empty missing list, the master planner stores an error record whose
`details` lists exactly the accumulated missing key paths, the error plan
carries an `error` key and `status = "error"`, `is_complete` stays false,
and the session-status gate sends it to `error`, never `pending_approval`.
Neither emptiness nor actual key-path presence of a present value is
otherwise checked (the original claim's "missing or empty ... is rejected"
fails both for empty values and for string values containing the subfield
names as substrings, see the counterexample). -/
theorem claim2_missing_key_validation_gate (d : PObj) (users : List UserP)
    (planId createdAt rawText : String) (s : GCState)
    (_hnr : validateRaisesTypeError d = false) :
    ((validatePlan d).1 = true ↔
      ∀ fs ∈ requiredFields, ∃ v, getKey d fs.1 = some v ∧
        ∀ sub ∈ fs.2, pvalHasKey v sub = true) ∧
    ((validatePlan d).1 = false →
      (masterPlannerNode users (some d) planId createdAt rawText s).currentPlan =
        some [("error", .str "Plan validation failed"),
              ("details", .str ("Missing required fields: " ++
                String.intercalate ", " (missingOf d))),
              ("status", .str "error")] ∧
      (masterPlannerNode users (some d) planId createdAt rawText s).isComplete =
        false ∧
      sessionStatus (masterPlannerNode users (some d) planId createdAt rawText s) =
        "error" ∧
      sessionStatus (masterPlannerNode users (some d) planId createdAt rawText s) ≠
        "pending_approval") := by
  constructor
  · rw [show (validatePlan d).1 = (missingOf d).isEmpty by
      unfold validatePlan
      cases h : (missingOf d).isEmpty <;> simp [h]]
    rw [List.isEmpty_iff]
    exact missingOf_nil_iff d
  · intro h
    have hne : (missingOf d).isEmpty = false := by
      by_cases he : (missingOf d).isEmpty
      · exfalso; rw [show (validatePlan d).1 = true by
          unfold validatePlan; simp [he]] at h
        cases h
      · simpa using he
    have hv : validatePlan d =
        (false, some ("Missing required fields: " ++
          String.intercalate ", " (missingOf d))) := by
      unfold validatePlan
      simp [hne]
    have hupd : masterPlannerUpdate (some d) planId createdAt rawText
        (users.map UserP.userId) =
        { currentPlan :=
            [("error", .str "Plan validation failed"),
             ("details", .str ("Missing required fields: " ++
               String.intercalate ", " (missingOf d))),
             ("status", .str "error")]
          isComplete := false } := by
      simp only [masterPlannerUpdate]
      rw [hv]
      rfl
    have hst : sessionStatus (masterPlannerNode users (some d) planId createdAt
        rawText s) = "error" := by
      have hacc : planAcceptableForApproval
          (masterPlannerNode users (some d) planId createdAt rawText s).currentPlan
          = false := by
        show planAcceptableForApproval
          (some (masterPlannerUpdate (some d) planId createdAt rawText
            (users.map UserP.userId)).currentPlan) = false
        rw [hupd]
        rfl
      unfold sessionStatus
      rw [hacc]
      rfl
    refine ⟨?_, ?_, hst, ?_⟩
    · show some (masterPlannerUpdate (some d) planId createdAt rawText
        (users.map UserP.userId)).currentPlan = _
      rw [hupd]
    · show (masterPlannerUpdate (some d) planId createdAt rawText
        (users.map UserP.userId)).isComplete = _
      rw [hupd]
    · rw [hst]
      decide

/-- Claim C2 witness: the empty document runs the loop without a `TypeError`,
is rejected, its missing list is the five top-level required fields, and the
resulting round ends with status `error`, not `pending_approval`. -/
theorem claim2_witness :
    validateRaisesTypeError emptyDoc = false ∧
    (validatePlan emptyDoc).1 = false ∧
    missingOf emptyDoc = ["dates", "flight", "hotel", "budget", "location"] ∧
    (masterPlannerNode [aliceU] (some emptyDoc) "pid" "t0" "" doneState).isComplete
      = false ∧
    sessionStatus (masterPlannerNode [aliceU] (some emptyDoc) "pid" "t0" "" doneState)
      = "error" := by
  refine ⟨by decide, by decide, by decide, ?_, ?_⟩
  · exact ((claim2_missing_key_validation_gate emptyDoc [aliceU] "pid" "t0" ""
      doneState (by decide)).2 (by decide)).2.1
  · exact ((claim2_missing_key_validation_gate emptyDoc [aliceU] "pid" "t0" ""
      doneState (by decide)).2 (by decide)).2.2.1

/-- Claim C2 counterexample: two documents refute the claim.  `emptyDatePlan`
has `dates.departure_date` present but EMPTY and passes `_validate_plan`; and
`strDatesPlan` stores `dates` as a plain STRING, so the required key paths
`dates.departure_date` / `dates.return_date` are genuinely missing, yet the
substring semantics of Python `in` lets it pass too.  Both synthesize to
`status = "draft"` with no `error` key and reach `pending_approval` — the
claim's "missing or empty ... is rejected with a MissingFields error" is
false. -/
theorem claim2_counterexample :
    getKey emptyDatePlan "dates" =
      some (.obj [("departure_date", PVal.str ""),
                  ("return_date", PVal.str "2025-06-10")]) ∧
    (validatePlan emptyDatePlan).1 = true ∧
    (masterPlannerNode [aliceU] (some emptyDatePlan) "pid" "t0" "" doneState).isComplete
      = true ∧
    hasKey (masterPlannerUpdate (some emptyDatePlan) "pid" "t0" ""
      ["alice"]).currentPlan "error" = false ∧
    getKey (masterPlannerUpdate (some emptyDatePlan) "pid" "t0" ""
      ["alice"]).currentPlan "status" = some (.str "draft") ∧
    sessionStatus (masterPlannerNode [aliceU] (some emptyDatePlan) "pid" "t0" ""
      doneState) = "pending_approval" ∧
    getKey strDatesPlan "dates" =
      some (.str "departure_date: 2025-06-01, return_date: 2025-06-10") ∧
    validateRaisesTypeError strDatesPlan = false ∧
    (validatePlan strDatesPlan).1 = true ∧
    (masterPlannerNode [aliceU] (some strDatesPlan) "pid" "t0" "" doneState).isComplete
      = true ∧
    hasKey (masterPlannerUpdate (some strDatesPlan) "pid" "t0" ""
      ["alice"]).currentPlan "error" = false ∧
    getKey (masterPlannerUpdate (some strDatesPlan) "pid" "t0" ""
      ["alice"]).currentPlan "status" = some (.str "draft") ∧
    sessionStatus (masterPlannerNode [aliceU] (some strDatesPlan) "pid" "t0" ""
      doneState) = "pending_approval" := by
  exact ⟨rfl, rfl, rfl, rfl, rfl, rfl, rfl, rfl, rfl, rfl, rfl, rfl, rfl⟩

/-! ## C5 — completion flag vs current plan -/

/-- Claim C5 (amended): after synthesis runs, `is_complete` is true iff the
LLM output failed to parse OR parsed and passed validation — a validation
failure leaves `is_complete = false` even though synthesis has run; and
synthesis ALWAYS stores a non-null `current_plan` (plan or error record), so
`is_complete = false` with a non-null `current_plan` is reachable.  Agent
turns preserve both fields, the fresh state starts with
`is_complete = false` and a null plan, and a rejection forces
`is_complete = false` while leaving `current_plan` in place.  (The original
claim's two iff-invariants fail, see the counterexample.) -/
theorem claim5_completion_flag (users : List UserP) (parsed : Option PObj)
    (planId createdAt rawText : String) (s : GCState) (u : UserP) (c : String)
    (mpv : Nat) (f uid : String) :
    (masterPlannerNode users parsed planId createdAt rawText s).isComplete =
      (parsed.isNone || (missingOf (parsed.getD [])).isEmpty) ∧
    (masterPlannerNode users parsed planId createdAt rawText s).currentPlan ≠
      none ∧
    (agentNode u c s).isComplete = s.isComplete ∧
    (agentNode u c s).currentPlan = s.currentPlan ∧
    (initialState mpv).isComplete = false ∧
    (initialState mpv).currentPlan = none ∧
    (handleRejection users s f uid).isComplete = false ∧
    (handleRejection users s f uid).currentPlan = s.currentPlan := by
  refine ⟨?_, ?_, rfl, rfl, rfl, rfl, rfl, rfl⟩
  · show (masterPlannerUpdate parsed planId createdAt rawText
      (users.map UserP.userId)).isComplete = _
    cases parsed with
    | none => rfl
    | some d =>
        simp only [masterPlannerUpdate]
        rw [show (validatePlan d).1 = (missingOf d).isEmpty by
          unfold validatePlan
          cases h : (missingOf d).isEmpty <;> simp [h]]
        cases h : (missingOf d).isEmpty <;> simp [h]
  · show some (masterPlannerUpdate parsed planId createdAt rawText
      (users.map UserP.userId)).currentPlan ≠ none
    exact fun h => Option.noConfusion h

/-- Claim C5 witness: a concrete parse failure completes the round
(`is_complete = true`), and a rejection applied to `doneState` leaves the
now-incomplete state still holding the plan. -/
theorem claim5_witness :
    (masterPlannerNode [aliceU] none "pid" "t0" "bad output" doneState).isComplete
      = true ∧
    (masterPlannerNode [aliceU] none "pid" "t0" "bad output" doneState).currentPlan
      ≠ none ∧
    (handleRejection [aliceU] doneState "no" "alice").isComplete = false ∧
    (handleRejection [aliceU] doneState "no" "alice").currentPlan =
      some donePlan := by
  refine ⟨?_, ?_, ?_, ?_⟩
  · exact (claim5_completion_flag [aliceU] none "pid" "t0" "bad output" doneState
      aliceU "c" 1 "no" "alice").1
  · exact (claim5_completion_flag [aliceU] none "pid" "t0" "bad output" doneState
      aliceU "c" 1 "no" "alice").2.1
  · exact (claim5_completion_flag [aliceU] none "pid" "t0" "bad output" doneState
      aliceU "c" 1 "no" "alice").2.2.2.2.2.2.1
  · exact (claim5_completion_flag [aliceU] none "pid" "t0" "bad output" doneState
      aliceU "c" 1 "no" "alice").2.2.2.2.2.2.2

/-- Claim C5 counterexample: run one agent turn from a fresh single-user
state, then synthesize a document that fails validation (`emptyDoc`).
Synthesis has run for the round, yet `is_complete = false`; and with
`is_complete = false` the state holds a non-null `current_plan` (the error
record) — both directions of the claimed invariant are violated on this
reachable state. -/
theorem claim5_counterexample :
    (masterPlannerNode [aliceU] (some emptyDoc) "pid" "t0" ""
      (runTurnsFuel [aliceU] 1 (fun _ => "hello") 1 (initialState 1))).isComplete
      = false ∧
    (masterPlannerNode [aliceU] (some emptyDoc) "pid" "t0" ""
      (runTurnsFuel [aliceU] 1 (fun _ => "hello") 1 (initialState 1))).currentPlan
      ≠ none := by
  refine ⟨rfl, ?_⟩
  intro h
  exact Option.noConfusion h

/-! ## C1 — strict round-robin scheduling with a fixed budget -/

lemma getD_map_userId (users : List UserP) (i : Nat) (hi : i < users.length) :
    (users.map UserP.userId).getD i "" = (users.getD i defaultU).userId := by
  rw [List.getD_eq_getElem _ _ (by simpa using hi), List.getD_eq_getElem _ _ hi]
  simp

lemma findUser_getD (users : List UserP)
    (hNodup : (users.map UserP.userId).Nodup) :
    ∀ i, i < users.length →
      findUser users ((users.getD i defaultU).userId) = users.getD i defaultU := by
  induction users with
  | nil => intro i hi; simp at hi
  | cons a t ih =>
      intro i hi
      have hN : a.userId ∉ t.map UserP.userId ∧ (t.map UserP.userId).Nodup := by
        rw [List.map_cons, List.nodup_cons] at hNodup
        exact hNodup
      cases i with
      | zero =>
          show findUser (a :: t) a.userId = a
          unfold findUser
          rw [List.find?_cons]
          simp
      | succ i =>
          have hi' : i < t.length := by simpa using hi
          have hmem : (t.getD i defaultU).userId ∈ t.map UserP.userId := by
            rw [List.getD_eq_getElem _ _ hi']
            exact List.mem_map.mpr ⟨t[i], List.getElem_mem hi', rfl⟩
          have hne : (a.userId == (t.getD i defaultU).userId) = false := by
            rw [beq_eq_false_iff_ne]
            intro h
            exact hN.1 (h ▸ hmem)
          show findUser (a :: t) ((t.getD i defaultU).userId) = t.getD i defaultU
          unfold findUser
          rw [List.find?_cons, hne]
          exact ih hN.2 i hi'

lemma runTurnsFuel_stopped (users : List UserP) (K : Nat)
    (content : Nat → String) (fuel : Nat) (s : GCState)
    (h : routeSupervisor (users.map UserP.userId) K s = .masterPlanner) :
    runTurnsFuel users K content fuel s = s := by
  cases fuel with
  | zero => rfl
  | succ f =>
      show (match routeSupervisor (users.map UserP.userId) K s with
            | .masterPlanner => s
            | .agent uid =>
                runTurnsFuel users K content f
                  (agentNode (findUser users uid) (content s.totalTurns) s)) = s
      rw [h]

lemma runTurnsFuel_add (users : List UserP) (K : Nat)
    (content : Nat → String) :
    ∀ (a b : Nat) (s : GCState),
      runTurnsFuel users K content (a + b) s =
        runTurnsFuel users K content b (runTurnsFuel users K content a s) := by
  intro a
  induction a with
  | zero => intro b s; rw [Nat.zero_add]; rfl
  | succ a ih =>
      intro b s
      have hform : a + 1 + b = (a + b) + 1 := by omega
      rw [hform]
      cases hr : routeSupervisor (users.map UserP.userId) K s with
      | masterPlanner =>
          rw [runTurnsFuel_stopped users K content _ s hr,
              runTurnsFuel_stopped users K content _ s hr,
              runTurnsFuel_stopped users K content _ s hr]
      | agent uid =>
          have hL : runTurnsFuel users K content ((a + b) + 1) s =
              runTurnsFuel users K content (a + b)
                (agentNode (findUser users uid) (content s.totalTurns) s) := by
            show (match routeSupervisor (users.map UserP.userId) K s with
                  | .masterPlanner => s
                  | .agent u =>
                      runTurnsFuel users K content (a + b)
                        (agentNode (findUser users u) (content s.totalTurns) s)) = _
            rw [hr]
          have hR : runTurnsFuel users K content (a + 1) s =
              runTurnsFuel users K content a
                (agentNode (findUser users uid) (content s.totalTurns) s) := by
            show (match routeSupervisor (users.map UserP.userId) K s with
                  | .masterPlanner => s
                  | .agent u =>
                      runTurnsFuel users K content a
                        (agentNode (findUser users u) (content s.totalTurns) s)) = _
            rw [hr]
          rw [hL, hR, ih]

lemma runTurns_fresh_inv (users : List UserP) (K : Nat)
    (content : Nat → String) (mpv : Nat)
    (hNodup : (users.map UserP.userId).Nodup) :
    ∀ j, j ≤ users.length * K →
      (runTurnsFuel users K content j (initialState mpv)).totalTurns = j ∧
      (runTurnsFuel users K content j (initialState mpv)).currentAgentIndex = j ∧
      (runTurnsFuel users K content j (initialState mpv)).messages =
        expectedMsgs users content j ∧
      (∀ uid,
        (runTurnsFuel users K content j (initialState mpv)).agentMessageCounts uid
          = countsIn users j uid) := by
  intro j
  induction j with
  | zero =>
      intro _
      exact ⟨rfl, rfl, rfl, fun uid => rfl⟩
  | succ j ih =>
      intro hj
      have hj' : j ≤ users.length * K := by omega
      obtain ⟨h1, h2, h3, h4⟩ := ih hj'
      have hN : 0 < users.length := by
        by_contra h
        have h0 : users.length = 0 := by omega
        rw [h0, Nat.zero_mul] at hj
        omega
      have hroute : routeSupervisor (users.map UserP.userId) K
          (runTurnsFuel users K content j (initialState mpv)) =
          .agent ((users.map UserP.userId).getD (j % users.length) "") := by
        have hlt : ¬ (users.length * K ≤
            (runTurnsFuel users K content j (initialState mpv)).totalTurns) := by
          rw [h1]; omega
        simp [routeSupervisor, hlt, h2]
      have hstep : runTurnsFuel users K content (j + 1) (initialState mpv) =
          agentNode (speakerAt users j) (content j)
            (runTurnsFuel users K content j (initialState mpv)) := by
        rw [runTurnsFuel_add users K content j 1 (initialState mpv)]
        show (match routeSupervisor (users.map UserP.userId) K
              (runTurnsFuel users K content j (initialState mpv)) with
            | .masterPlanner => runTurnsFuel users K content j (initialState mpv)
            | .agent uid =>
                runTurnsFuel users K content 0
                  (agentNode (findUser users uid)
                    (content (runTurnsFuel users K content j
                      (initialState mpv)).totalTurns)
                    (runTurnsFuel users K content j (initialState mpv)))) = _
        rw [hroute, h1]
        show agentNode (findUser users
            ((users.map UserP.userId).getD (j % users.length) "")) (content j)
            (runTurnsFuel users K content j (initialState mpv)) = _
        rw [getD_map_userId users _ (Nat.mod_lt _ hN),
            findUser_getD users hNodup _ (Nat.mod_lt _ hN)]
        rfl
      refine ⟨?_, ?_, ?_, ?_⟩
      · rw [hstep]
        show (runTurnsFuel users K content j (initialState mpv)).totalTurns + 1 = j + 1
        rw [h1]
      · rw [hstep]
        show (runTurnsFuel users K content j (initialState mpv)).currentAgentIndex + 1
          = j + 1
        rw [h2]
      · rw [hstep]
        show (runTurnsFuel users K content j (initialState mpv)).messages ++
          [mkAgentMsg (speakerAt users j) (content j)] = expectedMsgs users content (j + 1)
        rw [h3]
        unfold expectedMsgs
        rw [List.range_succ, List.map_append]
        rfl
      · intro uid
        rw [hstep]
        show (if uid = (speakerAt users j).userId then
            (runTurnsFuel users K content j
              (initialState mpv)).agentMessageCounts (speakerAt users j).userId + 1
          else (runTurnsFuel users K content j
              (initialState mpv)).agentMessageCounts uid) = countsIn users (j + 1) uid
        rw [h4, h4]
        unfold countsIn
        rw [List.range_succ, List.map_append, List.count_append, List.map_cons,
            List.map_nil, List.count_singleton]
        by_cases he : uid = (speakerAt users j).userId
        · rw [if_pos he, if_pos (by rw [he]; exact beq_self_eq_true _), he]
        · rw [if_neg he,
              if_neg (by rw [beq_iff_eq]; exact fun h => he h.symm)]
          omega

lemma map_getD_range_self (l : List UserP) (d : UserP) :
    (List.range l.length).map (fun i => l.getD i d) = l := by
  apply List.ext_getElem
  · simp
  · intro n h1 h2
    simp only [List.getElem_map, List.getElem_range]
    exact List.getD_eq_getElem l d h2

lemma speaker_cycle (users : List UserP) :
    ∀ k, (List.range (users.length * k)).map
        (fun j => users.getD (j % users.length) defaultU) =
      (List.replicate k users).flatten := by
  intro k
  induction k with
  | zero => simp
  | succ k ih =>
      have hmul : users.length * (k + 1) = users.length + users.length * k := by
        ring
      rw [hmul, List.range_add, List.map_append, List.map_map]
      have h1 : (List.range users.length).map
          (fun j => users.getD (j % users.length) defaultU) = users := by
        have hcong : ∀ j ∈ List.range users.length,
            users.getD (j % users.length) defaultU = users.getD j defaultU := by
          intro j hj
          rw [Nat.mod_eq_of_lt (List.mem_range.mp hj)]
        rw [List.map_congr_left hcong, map_getD_range_self]
      have h2 : (List.range (users.length * k)).map
          ((fun j => users.getD (j % users.length) defaultU) ∘
            (fun x => users.length + x)) =
          (List.replicate k users).flatten := by
        rw [← ih]
        apply List.map_congr_left
        intro a _
        show users.getD ((users.length + a) % users.length) defaultU = _
        rw [Nat.add_mod_left]
      rw [h1, h2, List.replicate_succ, List.flatten_cons]

lemma count_flatten_replicate (ids : List String) (x : String) :
    ∀ k, ((List.replicate k ids).flatten).count x = k * ids.count x := by
  intro k
  induction k with
  | zero => simp
  | succ k ih =>
      rw [List.replicate_succ, List.flatten_cons, List.count_append, ih,
          Nat.succ_mul]
      omega

/-- Claim C1: the router sends the flow to the master planner iff
`total_turns >= N * K` (never before, never after), and otherwise to the
participant at registration index `current_agent_index mod N`; consequently a
full fresh round runs exactly `N * K` turns, after which the router selects
synthesis, the speaker sequence (message names) is the registration order
repeated `K` times, and every participant's turn count is exactly `K`. -/
theorem claim1_round_robin_schedule (users : List UserP) (K mpv : Nat)
    (content : Nat → String) (hN : 1 ≤ users.length)
    (hNodup : (users.map UserP.userId).Nodup) :
    (∀ s : GCState,
      routeSupervisor (users.map UserP.userId) K s = .masterPlanner ↔
        users.length * K ≤ s.totalTurns) ∧
    (∀ s : GCState, s.totalTurns < users.length * K →
      routeSupervisor (users.map UserP.userId) K s =
        .agent ((users.map UserP.userId).getD
          (s.currentAgentIndex % users.length) "")) ∧
    (runTurnsFuel users K content (users.length * K)
        (initialState mpv)).totalTurns = users.length * K ∧
    routeSupervisor (users.map UserP.userId) K
      (runTurnsFuel users K content (users.length * K) (initialState mpv)) =
      .masterPlanner ∧
    (runTurnsFuel users K content (users.length * K)
        (initialState mpv)).messages.map Msg.name =
      ((List.replicate K users).flatten).map (fun u => some u.userName) ∧
    (∀ p ∈ users,
      (runTurnsFuel users K content (users.length * K)
        (initialState mpv)).agentMessageCounts p.userId = K) := by
  obtain ⟨h1, h2, h3, h4⟩ :=
    runTurns_fresh_inv users K content mpv hNodup (users.length * K) le_rfl
  have hroutes : ∀ s : GCState,
      routeSupervisor (users.map UserP.userId) K s = .masterPlanner ↔
        users.length * K ≤ s.totalTurns := by
    intro s
    by_cases hle : users.length * K ≤ s.totalTurns
    · simp [routeSupervisor, hle]
    · simp [routeSupervisor, hle]
  refine ⟨hroutes, ?_, h1, ?_, ?_, ?_⟩
  · intro s h
    have hnle : ¬ (users.length * K ≤ s.totalTurns) := by omega
    simp [routeSupervisor, hnle]
  · exact (hroutes _).mpr (by rw [h1])
  · rw [h3]
    unfold expectedMsgs
    rw [List.map_map, ← speaker_cycle users K, List.map_map]
    rfl
  · intro p hp
    rw [h4]
    unfold countsIn
    have hseq : (List.range (users.length * K)).map
        (fun i => (speakerAt users i).userId) =
        ((List.replicate K users).flatten).map UserP.userId := by
      rw [← speaker_cycle users K, List.map_map]
      rfl
    rw [hseq, List.map_flatten, List.map_replicate,
        count_flatten_replicate (users.map UserP.userId) p.userId K,
        List.count_eq_one_of_mem hNodup (List.mem_map.mpr ⟨p, hp, rfl⟩)]
    omega

/-- Claim C1 witness: two participants, one turn each — the fresh round runs
exactly two turns in registration order, the router then selects the master
planner, and each participant's count is 1. -/
theorem claim1_witness :
    1 ≤ ([aliceU, bobU] : List UserP).length ∧
    ([aliceU, bobU].map UserP.userId).Nodup ∧
    (runTurnsFuel [aliceU, bobU] 1 (fun _ => "hi") 2
        (initialState 1)).messages.map Msg.name = [some "Alice", some "Bob"] ∧
    routeSupervisor ([aliceU, bobU].map UserP.userId) 1
      (runTurnsFuel [aliceU, bobU] 1 (fun _ => "hi") 2 (initialState 1)) =
      .masterPlanner ∧
    (runTurnsFuel [aliceU, bobU] 1 (fun _ => "hi") 2
        (initialState 1)).agentMessageCounts "alice" = 1 := by
  refine ⟨by decide, by decide, ?_, ?_, ?_⟩
  · exact (claim1_round_robin_schedule [aliceU, bobU] 1 1 (fun _ => "hi")
      (by decide) (by decide)).2.2.2.2.1
  · exact (claim1_round_robin_schedule [aliceU, bobU] 1 1 (fun _ => "hi")
      (by decide) (by decide)).2.2.2.1
  · exact (claim1_round_robin_schedule [aliceU, bobU] 1 1 (fun _ => "hi")
      (by decide) (by decide)).2.2.2.2.2 aliceU (by decide)

end YCAgentMail
